import Mathlib

/-!
Verification development for a small language front end and tree-walking
evaluator (lexer in `src/token.rs`, recursive-descent expression parser in
`src/parser.rs`, AST and evaluation in `src/ast/expression.rs`,
`src/ast/statement.rs`, `src/ast/declaration.rs`, `src/module.rs`).

The Rust code is embedded shallowly:
- machine integers (`i64`) are modelled as `Int` (the spec leaves overflow
  undefined, and no property below exercises it);
- `HashMap<String, Value>` is modelled as an association list with
  insert-overwrite and first-match lookup (the evaluator only ever inserts,
  looks up and clones, so iteration order is unobservable);
- Rust panics (out-of-bounds indexing, division by zero, the unreachable
  arm of binary evaluation) and non-termination are modelled by an explicit
  abort channel `Abort`: evaluation returns
  `Except Abort (Except EvalError α × Env)`, where the inner `Except` is the
  Rust `Result` that the program treats as a value, and the environment is
  threaded explicitly (it is passed as `&mut` everywhere in the source);
- unbounded recursion and the `loop`/`while` constructs are made total with
  a fuel parameter; every evaluator and parser function spends one unit of
  fuel per call, and exhaustion is the distinguished abort `Abort.outOfFuel`
  (never confused with a parse failure or an evaluation error).
-/

namespace Interp

/-! ## Token model (`src/token.rs`) -/

/-- Arithmetic operators (`enum Op`). -/
inductive Op : Type where
  | Plus
  | Minus
  | Times
  | Div
deriving DecidableEq, Repr

/-- Comparison operators (`enum Comp`). -/
inductive Comp : Type where
  | Equal
  | Lower
  | LowerEq
  | Higher
  | HigherEq
deriving DecidableEq, Repr

/-- Lexical tokens (`enum Token`). -/
inductive Token : Type where
  | TokenOp (op : Op)
  | TokenComp (c : Comp)
  | Ident (name : String)
  | Integer (i : Int)
  | String (s : String)
  | Equal
  | LPar
  | RPar
  | LBrace
  | RBrace
  | LBracket
  | RBracket
  | SemiColon
  | Comma
  | Return
  | Fn
  | If
  | Else
  | True
  | False
  | Loop
  | Break
deriving DecidableEq, Repr

/-- Lexing errors (`enum TokenError` in `src/error.rs`). -/
inductive TokenError : Type where
  | UnknownChar (c : Char)
deriving DecidableEq, Repr

/-- The keyword table of `tokenize`: a scanned word is matched against the
fixed keywords, anything else becomes an identifier. -/
def keywordOrIdent (w : String) : Token :=
  match w with
  | "return" => .Return
  | "fn" => .Fn
  | "if" => .If
  | "else" => .Else
  | "true" => .True
  | "false" => .False
  | "loop" => .Loop
  | "break" => .Break
  | _ => .Ident w

/-- Digit test of the number-scanning loop (`ch.to_digit(10)`). -/
def isDigitChar (c : Char) : Bool := c.isDigit

/-- Continuation test of the word-scanning loop
(`next_ch.is_alphanumeric() || next_ch == '_'`, restricted to ASCII). -/
def isWordChar (c : Char) : Bool := c.isAlphanum || c == '_'

/-- Decimal value accumulated by the number-scanning loop
(`num = 10 * num + next_num`; the source accumulates in `u32` and casts to
`i64`, with no overflow checking — the spec leaves overflow undefined, so
the value is modelled exactly). -/
def numberValue (first : Char) (digits : List Char) : Nat :=
  digits.foldl (fun n c => 10 * n + (c.toNat - 48)) (first.toNat - 48)

/-- The lexer loop of `tokenize`, one step per current character. Each
branch mirrors one arm of the Rust `loop`: maximal digit runs, maximal
word runs, string literals scanned to the next quote (an unterminated
literal ends the scan with the tokens produced so far), `//` comments
dropped through the newline, two-character lookahead for `==` `<=` `>=`,
single-character punctuation, whitespace skipped, and anything else an
`UnknownChar` failure. Every step consumes at least one character, so the
Rust loop always terminates; here the loop is made structurally recursive
on a fuel bound with `none` for exhaustion, and `tokenizeLoop_total`
proves that any fuel above the input length never exhausts. -/
def tokenizeLoop : Nat → List Token → List Char → Option (Except TokenError (List Token))
  | 0, _, _ => none
  | _ + 1, tokens, [] => some (.ok tokens)
  | fuel + 1, tokens, c :: cs =>
    if isDigitChar c then
      tokenizeLoop fuel
        (tokens ++ [.Integer (Int.ofNat (numberValue c (cs.takeWhile isDigitChar)))])
        (cs.dropWhile isDigitChar)
    else if c.isAlpha || c == '_' then
      tokenizeLoop fuel
        (tokens ++ [keywordOrIdent (String.mk (c :: cs.takeWhile isWordChar))])
        (cs.dropWhile isWordChar)
    else if c == '"' then
      if (cs.dropWhile (fun d => d != '"')).isEmpty then some (.ok tokens)
      else
        tokenizeLoop fuel (tokens ++ [.String (String.mk (cs.takeWhile (fun d => d != '"')))])
          ((cs.dropWhile (fun d => d != '"')).tail)
    else if c = '+' then tokenizeLoop fuel (tokens ++ [.TokenOp .Plus]) cs
    else if c = '-' then tokenizeLoop fuel (tokens ++ [.TokenOp .Minus]) cs
    else if c = '/' then
      if cs.head? = some '/' then
        tokenizeLoop fuel tokens ((cs.tail.dropWhile (fun d => d != '\n')).tail)
      else tokenizeLoop fuel (tokens ++ [.TokenOp .Div]) cs
    else if c = '*' then tokenizeLoop fuel (tokens ++ [.TokenOp .Times]) cs
    else if c = '(' then tokenizeLoop fuel (tokens ++ [.LPar]) cs
    else if c = ')' then tokenizeLoop fuel (tokens ++ [.RPar]) cs
    else if c = '{' then tokenizeLoop fuel (tokens ++ [.LBrace]) cs
    else if c = '}' then tokenizeLoop fuel (tokens ++ [.RBrace]) cs
    else if c = '[' then tokenizeLoop fuel (tokens ++ [.LBracket]) cs
    else if c = ']' then tokenizeLoop fuel (tokens ++ [.RBracket]) cs
    else if c = '=' then
      if cs.head? = some '=' then tokenizeLoop fuel (tokens ++ [.TokenComp .Equal]) cs.tail
      else tokenizeLoop fuel (tokens ++ [.Equal]) cs
    else if c = '<' then
      if cs.head? = some '=' then tokenizeLoop fuel (tokens ++ [.TokenComp .LowerEq]) cs.tail
      else tokenizeLoop fuel (tokens ++ [.TokenComp .Lower]) cs
    else if c = '>' then
      if cs.head? = some '=' then tokenizeLoop fuel (tokens ++ [.TokenComp .HigherEq]) cs.tail
      else tokenizeLoop fuel (tokens ++ [.TokenComp .Higher]) cs
    else if c = ';' then tokenizeLoop fuel (tokens ++ [.SemiColon]) cs
    else if c = ',' then tokenizeLoop fuel (tokens ++ [.Comma]) cs
    else if c = ' ' then tokenizeLoop fuel tokens cs
    else if c = '\r' then tokenizeLoop fuel tokens cs
    else if c = '\t' then tokenizeLoop fuel tokens cs
    else if c = '\n' then tokenizeLoop fuel tokens cs
    else some (.error (.UnknownChar c))

/-- `tokenize` (`src/token.rs`): scan the whole input left to right, with
fuel one above the input length (always sufficient, `tokenizeLoop_total`). -/
def tokenize (input : List Char) : Option (Except TokenError (List Token)) :=
  tokenizeLoop (input.length + 1) [] input

/-! ## Runtime values and AST (`src/ast/expression.rs`, `src/ast/statement.rs`,
`src/ast/declaration.rs`) -/

/-- Runtime values (`enum Value`): integer, boolean, list, or the explicit
no-value marker (`Value::List` and `Value::None` are named `ListValue` and
`NoneValue` here to avoid clashing with the core `List`/`none`). -/
inductive Value : Type where
  | IntValue (i : Int)
  | BoolValue (b : Bool)
  | ListValue (vs : List Value)
  | NoneValue
deriving Repr

/-- Evaluation errors. `enum EvalError` in `src/error.rs` declares
`NotImplemented`, `UnknownVariable` and `MultipleError`; the evaluator and
module code additionally construct `EvalError::Error(&str)`, which is
included here as `Error`. -/
inductive EvalError : Type where
  | NotImplemented
  | UnknownVariable (name : String)
  | MultipleError (errs : List EvalError)
  | Error (msg : String)
deriving Repr

/-- Parse errors (`enum ParserError` in `src/error.rs`). -/
inductive ParserError : Type where
  | UnknownSyntax
  | TokensNotParsed
  | ExpectedDifferentToken (msg : String)
  | WrongFunctionArgumentList
  | WrongFunctionBody
deriving DecidableEq, Repr

/-- Expressions (`enum Expr`); `Expr::List` is named `ListExpr` here. -/
inductive Expr : Type where
  | ConstExpr (v : Value)
  | NegExpr (e : Expr)
  | ParenthesisExpr (e : Expr)
  | BinaryExpr (l : Expr) (op : Op) (r : Expr)
  | CompareExpr (l : Expr) (c : Comp) (r : Expr)
  | AssignmentExpr (name : String) (e : Expr)
  | IdentExpr (name : String)
  | FunctionCall (name : String) (args : List Expr)
  | ListExpr (elems : List Expr)
  | ListAccess (name : String) (index : Expr)
deriving Repr

/-- Statements (`enum Statement`). -/
inductive Statement : Type where
  | SimpleStatement (e : Expr)
  | CompoundStatement (statements : List Statement)
  | Return (e : Expr)
  | If (condition : Expr) (body : Statement) (elseStatement : Option Statement)
  | Loop (body : Statement)
  | Break
deriving Repr

/-- Outcome of a statement evaluation (`enum StatementEval`);
`StatementEval::None` is named `NoneEval` here. -/
inductive StatementEval : Type where
  | Return (v : Value)
  | Break
  | NoneEval
deriving Repr

/-- A function argument name (`struct FnArg(pub String)`). -/
abbrev FnArg := String

/-- Declarations (`enum Declaration`): a named function with parameter
names and a body statement. -/
inductive Declaration : Type where
  | Function (name : String) (args : List FnArg) (body : Statement)
deriving Repr

/-- A module (`struct Module` in `src/module.rs`): an ordered list of
declarations. -/
structure Module : Type where
  declarations : List Declaration
deriving Repr

/-- `Module::get_function`: first declaration whose name matches. -/
def Module.get_function (m : Module) (name : String) : Option Declaration :=
  m.declarations.find? (fun d =>
    match d with
    | .Function fname _ _ => fname == name)

/-! ## Environment

The Rust evaluator passes a `&mut HashMap<String, Value>` everywhere; it
only ever inserts, looks up and clones it, so an association list with
insert-overwrite is an observationally faithful model. -/

/-- The variable environment. -/
abbrev Env := List (String × Value)

/-- `HashMap::insert`: bind `name`, overwriting any existing binding. -/
def Env.insert (env : Env) (name : String) (v : Value) : Env :=
  (name, v) :: env.filter (fun p => p.1 != name)

/-- `HashMap::get`: look up a binding. -/
def Env.get (env : Env) (name : String) : Option Value :=
  (List.find? (fun p => p.1 == name) env).map Prod.snd

/-! ## Derived comparison on values

`Value` derives `PartialEq`/`Ord` in Rust: structural equality, and the
derived total order (variant order `IntValue < BoolValue < List < None`,
fields compared left to right, lists lexicographically). -/

mutual

/-- Structural equality on values (derived `PartialEq`). -/
def Value.beq : Value → Value → Bool
  | .IntValue a, .IntValue b => a == b
  | .BoolValue a, .BoolValue b => a == b
  | .ListValue as, .ListValue bs => Value.beqList as bs
  | .NoneValue, .NoneValue => true
  | _, _ => false

/-- Element-wise equality of value lists. -/
def Value.beqList : List Value → List Value → Bool
  | [], [] => true
  | a :: as, b :: bs => Value.beq a b && Value.beqList as bs
  | _, _ => false

end

mutual

/-- The derived total order on values (derived `Ord`): variants in
declaration order, fields lexicographically. -/
def Value.cmp : Value → Value → Ordering
  | .IntValue a, .IntValue b => compare a b
  | .IntValue _, _ => .lt
  | .BoolValue _, .IntValue _ => .gt
  | .BoolValue a, .BoolValue b => compare a b
  | .BoolValue _, _ => .lt
  | .ListValue _, .IntValue _ => .gt
  | .ListValue _, .BoolValue _ => .gt
  | .ListValue as, .ListValue bs => Value.cmpList as bs
  | .ListValue _, .NoneValue => .lt
  | .NoneValue, .NoneValue => .eq
  | .NoneValue, _ => .gt

/-- Lexicographic order on value lists (derived `Ord` for `Vec`). -/
def Value.cmpList : List Value → List Value → Ordering
  | [], [] => .eq
  | [], _ :: _ => .lt
  | _ :: _, [] => .gt
  | a :: as, b :: bs =>
    match Value.cmp a b with
    | .eq => Value.cmpList as bs
    | o => o

end

/-- `Expr::eval_compare_expr`: apply a comparison operator using the
derived equality and order. -/
def Expr.eval_compare_expr (left : Value) (op : Comp) (right : Value) : Value :=
  match op with
  | .Equal => .BoolValue (Value.beq left right)
  | .Lower => .BoolValue (Value.cmp left right == .lt)
  | .LowerEq => .BoolValue (Value.cmp left right != .gt)
  | .Higher => .BoolValue (Value.cmp left right == .gt)
  | .HigherEq => .BoolValue (Value.cmp left right != .lt)

/-! ## The evaluator (`Expr::eval`, `Statement::eval`)

Aborts — Rust panics and (in this total model) fuel exhaustion — are the
outer `Except.error`; the Rust `Result` that the program handles as a value
is the inner `Except`. The environment is threaded through every call,
mirroring the `&mut` parameter: mutations made before an error are kept,
exactly as in the source. -/

/-- The abort channel: a Rust panic, or fuel exhaustion of this total
model (the source simply diverges or aborts the process). -/
inductive Abort : Type where
  | panicked (msg : String)
  | outOfFuel
deriving DecidableEq, Repr

/-- Result of an evaluation step: an abort, or the program-level
`Result` together with the updated environment. -/
abbrev EvalResult (α : Type) := Except Abort (Except EvalError α × Env)

mutual

/-- `Expr::eval` (`src/ast/expression.rs`), one constructor per arm of the
Rust `match`. Every call consumes one unit of fuel. -/
def Expr.eval : Nat → Expr → Env → Option Module → EvalResult Value
  | 0, _, _, _ => .error .outOfFuel
  | fuel + 1, e, env, m =>
    match e with
    | .ConstExpr v => .ok (.ok v, env)
    | .NegExpr inner =>
      match Expr.eval fuel inner env m with
      | .error ab => .error ab
      | .ok (.ok (.IntValue v), env') => .ok (.ok (.IntValue (-v)), env')
      | .ok (.error e1, env') => .ok (.error e1, env')
      | .ok (.ok _, env') =>
        .ok (.error (.Error "A negative express only applies to type Int and Float"), env')
    | .ParenthesisExpr inner => Expr.eval fuel inner env m
    | .BinaryExpr l op r =>
      match Expr.eval fuel l env m with
      | .error ab => .error ab
      | .ok (rl, env1) =>
        match Expr.eval fuel r env1 m with
        | .error ab => .error ab
        | .ok (rr, env2) =>
          match rl, rr with
          | .ok (.IntValue a), .ok (.IntValue b) =>
            match op with
            | .Plus => .ok (.ok (.IntValue (a + b)), env2)
            | .Minus => .ok (.ok (.IntValue (a - b)), env2)
            | .Times => .ok (.ok (.IntValue (a * b)), env2)
            | .Div =>
              if b = 0 then .error (.panicked "attempt to divide by zero")
              else .ok (.ok (.IntValue (Int.tdiv a b)), env2)
          | .ok (.ListValue vs1), .ok (.ListValue vs2) =>
            match op with
            | .Plus => .ok (.ok (.ListValue (vs1 ++ vs2)), env2)
            | _ => .ok (.error (.Error "Only addition is supported for list"), env2)
          | .error e1, .ok _ => .ok (.error e1, env2)
          | .ok _, .error e2 => .ok (.error e2, env2)
          | .error e1, .error e2 => .ok (.error (.MultipleError [e1, e2]), env2)
          | _, _ => .error (.panicked "Binary operation not supported")
    | .CompareExpr l cmp r =>
      match Expr.eval fuel l env m with
      | .error ab => .error ab
      | .ok (rl, env1) =>
        match Expr.eval fuel r env1 m with
        | .error ab => .error ab
        | .ok (rr, env2) =>
          match rl, rr with
          | .ok left, .ok right => .ok (.ok (Expr.eval_compare_expr left cmp right), env2)
          | .error e1, _ => .ok (.error e1, env2)
          | _, .error e2 => .ok (.error e2, env2)
    | .AssignmentExpr name value =>
      match Expr.eval fuel value env m with
      | .error ab => .error ab
      | .ok (.ok v, env') => .ok (.ok .NoneValue, Env.insert env' name v)
      | .ok (.error _, env') => .ok (.ok .NoneValue, env')
    | .IdentExpr name =>
      match Env.get env name with
      | some v => .ok (.ok v, env)
      | none => .ok (.error (.UnknownVariable name), env)
    | .FunctionCall name inputs =>
      match m with
      | none => .ok (.error (.Error "Module not found"), env)
      | some module =>
        match Module.get_function module name with
        | some (.Function _ args body) =>
          match Expr.bind_call_arguments fuel args inputs env [] m with
          | .error ab => .error ab
          | .ok (env', functionInputs) =>
            match Statement.eval fuel body functionInputs m with
            | .error ab => .error ab
            | .ok (.ok (.Return result), _) => .ok (.ok result, env')
            | .ok (.error err, _) => .ok (.error err, env')
            | .ok (.ok _, _) => .ok (.ok .NoneValue, env')
        | none => .ok (.error (.Error "Function not found"), env)
    | .ListExpr values =>
      match Expr.eval_elements fuel values env m with
      | .error ab => .error ab
      | .ok (.ok vs, env') => .ok (.ok (.ListValue vs), env')
      | .ok (.error err, env') => .ok (.error err, env')
    | .ListAccess name index =>
      match Expr.eval fuel index env m with
      | .error ab => .error ab
      | .ok (.ok (.IntValue pos), env') =>
        match Env.get env' name with
        | some (.ListValue values) =>
          if pos < 0 then .error (.panicked "index out of bounds")
          else
            match values[pos.toNat]? with
            | some v => .ok (.ok v, env')
            | none => .error (.panicked "index out of bounds")
        | some _ => .ok (.error (.Error "Only list can be accessed"), env')
        | none => .ok (.error (.UnknownVariable name), env')
      | .ok (.error err, env') => .ok (.error err, env')
      | .ok (.ok _, env') =>
        .ok (.error (.Error "When accessing a list, the index must be of type int"), env')

/-- The element loop of `Expr::eval` for list literals: evaluate each
element in order, returning the first failure. -/
def Expr.eval_elements : Nat → List Expr → Env → Option Module → EvalResult (List Value)
  | 0, _, _, _ => .error .outOfFuel
  | _ + 1, [], env, _ => .ok (.ok [], env)
  | fuel + 1, e :: es, env, m =>
    match Expr.eval fuel e env m with
    | .error ab => .error ab
    | .ok (.error err, env') => .ok (.error err, env')
    | .ok (.ok v, env') =>
      match Expr.eval_elements fuel es env' m with
      | .error ab => .error ab
      | .ok (.error err, env'') => .ok (.error err, env'')
      | .ok (.ok vs, env'') => .ok (.ok (v :: vs), env'')

/-- The argument-binding loop of `Expr::eval` for calls
(`for i in 0..args.len() { ... inputs[i] ... }`): walk the parameter
list, indexing into the argument list — which panics out of bounds when
there are fewer arguments than parameters; a failing argument evaluation
is skipped (`if let Ok`), leaving the parameter unbound. Returns the
caller environment (mutated by argument evaluation) and the fresh
environment of parameter bindings. -/
def Expr.bind_call_arguments :
    Nat → List FnArg → List Expr → Env → Env → Option Module → Except Abort (Env × Env)
  | 0, _, _, _, _, _ => .error .outOfFuel
  | _ + 1, [], _, env, acc, _ => .ok (env, acc)
  | _ + 1, _ :: _, [], _, _, _ => .error (.panicked "index out of bounds")
  | fuel + 1, p :: ps, input :: inputs, env, acc, m =>
    match Expr.eval fuel input env m with
    | .error ab => .error ab
    | .ok (.ok v, env') => Expr.bind_call_arguments fuel ps inputs env' (Env.insert acc p v) m
    | .ok (.error _, env') => Expr.bind_call_arguments fuel ps inputs env' acc m

/-- `Statement::eval` (`src/ast/statement.rs`). -/
def Statement.eval : Nat → Statement → Env → Option Module → EvalResult StatementEval
  | 0, _, _, _ => .error .outOfFuel
  | fuel + 1, s, env, m =>
    match s with
    | .SimpleStatement expr =>
      match Expr.eval fuel expr env m with
      | .error ab => .error ab
      | .ok (.ok _, env') => .ok (.ok .NoneEval, env')
      | .ok (.error err, env') => .ok (.error err, env')
    | .Return expr =>
      match Expr.eval fuel expr env m with
      | .error ab => .error ab
      | .ok (.ok result, env') => .ok (.ok (.Return result), env')
      | .ok (.error err, env') => .ok (.error err, env')
    | .CompoundStatement statements =>
      match Statement.eval_statement_list fuel statements env m with
      | .error ab => .error ab
      | .ok (r, _) => .ok (r, env)
    | .If condition body elseStatement =>
      match Expr.eval fuel condition env m with
      | .error ab => .error ab
      | .ok (.error err, env') => .ok (.error err, env')
      | .ok (.ok cond, env') =>
        match cond with
        | .IntValue i =>
          if i != 0 then Statement.eval fuel body env' m
          else
            match elseStatement with
            | some elseBody => Statement.eval fuel elseBody env' m
            | none => .ok (.ok .NoneEval, env')
        | .BoolValue b =>
          if b then Statement.eval fuel body env' m
          else
            match elseStatement with
            | some elseBody => Statement.eval fuel elseBody env' m
            | none => .ok (.ok .NoneEval, env')
        | .NoneValue => .ok (.error (.Error "'None' can't be casted to bool"), env')
        | .ListValue _ => .ok (.error (.Error "List can't be casted to bool"), env')
    | .Loop body =>
      match body with
      | .CompoundStatement statements => Statement.eval_loop fuel statements env m
      | _ =>
        .ok (.error (.Error "A loop statement can only be associated with a compound statement."),
          env)
    | .Break => .ok (.ok .Break, env)

/-- `Statement::eval_statement_list`: evaluate statements in order; a
`Break` or `Return` outcome, or an error, short-circuits. -/
def Statement.eval_statement_list :
    Nat → List Statement → Env → Option Module → EvalResult StatementEval
  | 0, _, _, _ => .error .outOfFuel
  | _ + 1, [], env, _ => .ok (.ok .NoneEval, env)
  | fuel + 1, stm :: rest, env, m =>
    match Statement.eval fuel stm env m with
    | .error ab => .error ab
    | .ok (.ok .NoneEval, env') => Statement.eval_statement_list fuel rest env' m
    | .ok (.ok .Break, env') => .ok (.ok .Break, env')
    | .ok (.ok (.Return result), env') => .ok (.ok (.Return result), env')
    | .ok (.error err, env') => .ok (.error err, env')

/-- The `while let Ok(result) = Self::eval_statement_list(..)` loop in the
`Statement::Loop` arm: re-evaluate the body's statement list against the
loop's own environment until a `Break` outcome yields `None`; any *other*
outcome (including `Return`!) falls into the `_ => {}` arm and iterates
again, and an `Err` ends the `while let`, falling through to `Ok(None)`. -/
def Statement.eval_loop : Nat → List Statement → Env → Option Module → EvalResult StatementEval
  | 0, _, _, _ => .error .outOfFuel
  | fuel + 1, statements, env, m =>
    match Statement.eval_statement_list fuel statements env m with
    | .error ab => .error ab
    | .ok (.ok .Break, env') => .ok (.ok .NoneEval, env')
    | .ok (.ok _, env') => Statement.eval_loop fuel statements env' m
    | .ok (.error _, env') => .ok (.ok .NoneEval, env')

end

/-! ## The expression parser (`src/parser.rs`)

The Rust `Parser` is a token slice plus a cursor `index`, with explicit
checkpoint/restore backtracking. Each parse method is modelled as a pure
function of the token list and the index; a successful parse returns the
result and the new index, so checkpoint restoration is implicit (a failed
sub-parse simply leaves the caller's index in use). The three outcomes:

- `PRes.ok e j` — `Some`/`Ok` with the cursor advanced to `j`;
- `PRes.fail` — `None` (or `Err(UnknownSyntax)` for `parse_expression`),
  after which the caller backtracks;
- `PRes.div` — fuel exhaustion of this total model only; it propagates
  through every alternative, so it is never confused with a parse failure.
-/

/-- Parse outcome: out of fuel, no match, or a result with the next
cursor index. -/
inductive PRes (α : Type) : Type where
  | div
  | fail
  | ok (a : α) (next : Nat)
deriving Repr

mutual

/-- `Parser::parse_expression`: try assignment, then function call, then
additive; `Err(UnknownSyntax)` — here `.fail` — when none match. -/
def parse_expression : Nat → List Token → Nat → PRes Expr
  | 0, _, _ => .div
  | fuel + 1, toks, i =>
    match parse_assignment_expr fuel toks i with
    | .div => .div
    | .ok e j => .ok e j
    | .fail =>
      match parse_function_call_expr fuel toks i with
      | .div => .div
      | .ok e j => .ok e j
      | .fail =>
        match parse_additive_expr fuel toks i with
        | .div => .div
        | .ok e j => .ok e j
        | .fail => .fail
termination_by structural fuel _ _ => fuel

/-- `Parser::parse_assignment_expr`: `Ident '=' Expression`. -/
def parse_assignment_expr : Nat → List Token → Nat → PRes Expr
  | 0, _, _ => .div
  | fuel + 1, toks, i =>
    match toks[i]? with
    | some (.Ident name) =>
      match toks[i + 1]? with
      | some .Equal =>
        match parse_expression fuel toks (i + 2) with
        | .div => .div
        | .fail => .fail
        | .ok e j => .ok (.AssignmentExpr name e) j
      | _ => .fail
    | _ => .fail
termination_by structural fuel _ _ => fuel

/-- `Parser::parse_function_call_expr`: `Ident` followed by a call
argument list. -/
def parse_function_call_expr : Nat → List Token → Nat → PRes Expr
  | 0, _, _ => .div
  | fuel + 1, toks, i =>
    match toks[i]? with
    | some (.Ident name) =>
      match parse_function_call_argument_list fuel toks (i + 1) with
      | .div => .div
      | .fail => .fail
      | .ok args j => .ok (.FunctionCall name args) j
    | _ => .fail
termination_by structural fuel _ _ => fuel

/-- `Parser::parse_function_call_argument_list`: `'(' ')'` for an empty
list, otherwise the argument loop. -/
def parse_function_call_argument_list : Nat → List Token → Nat → PRes (List Expr)
  | 0, _, _ => .div
  | fuel + 1, toks, i =>
    match toks[i]? with
    | some .LPar =>
      match toks[i + 1]? with
      | some .RPar => .ok [] (i + 2)
      | _ => parse_call_arguments_loop fuel toks (i + 1) []
    | _ => .fail
termination_by structural fuel _ _ => fuel

/-- The `while let Ok(expr) = self.parse_expression()` loop of
`parse_function_call_argument_list`: after each argument a `)` finishes
the list, a `,` (or anything else, including end of input — the `_ => {}`
arm) continues the loop; when no further expression parses, the whole
argument list fails (`None`). -/
def parse_call_arguments_loop : Nat → List Token → Nat → List Expr → PRes (List Expr)
  | 0, _, _, _ => .div
  | fuel + 1, toks, i, acc =>
    match parse_expression fuel toks i with
    | .div => .div
    | .fail => .fail
    | .ok e j =>
      match toks[j]? with
      | some .RPar => .ok (acc ++ [e]) (j + 1)
      | some .Comma => parse_call_arguments_loop fuel toks (j + 1) (acc ++ [e])
      | _ => parse_call_arguments_loop fuel toks j (acc ++ [e])
termination_by structural fuel _ _ _ => fuel

/-- `Parser::parse_additive_expr`: a multiplicative expression, then on
`+`/`-` a recursive call to `parse_additive_expr` for the *right*
operand (building a right-leaning tree); if the operator is present but
the right operand fails, the whole alternative fails. -/
def parse_additive_expr : Nat → List Token → Nat → PRes Expr
  | 0, _, _ => .div
  | fuel + 1, toks, i =>
    match parse_multiplicative_expr fuel toks i with
    | .div => .div
    | .fail => .fail
    | .ok left j =>
      match toks[j]? with
      | some (.TokenOp .Plus) =>
        match parse_additive_expr fuel toks (j + 1) with
        | .div => .div
        | .fail => .fail
        | .ok right k => .ok (.BinaryExpr left .Plus right) k
      | some (.TokenOp .Minus) =>
        match parse_additive_expr fuel toks (j + 1) with
        | .div => .div
        | .fail => .fail
        | .ok right k => .ok (.BinaryExpr left .Minus right) k
      | _ => .ok left j
termination_by structural fuel _ _ => fuel

/-- `Parser::parse_multiplicative_expr`: a primary expression, then on
`*`/`/` a recursive call to `parse_multiplicative_expr` for the right
operand. -/
def parse_multiplicative_expr : Nat → List Token → Nat → PRes Expr
  | 0, _, _ => .div
  | fuel + 1, toks, i =>
    match parse_primary_expr fuel toks i with
    | .div => .div
    | .fail => .fail
    | .ok left j =>
      match toks[j]? with
      | some (.TokenOp .Times) =>
        match parse_multiplicative_expr fuel toks (j + 1) with
        | .div => .div
        | .fail => .fail
        | .ok right k => .ok (.BinaryExpr left .Times right) k
      | some (.TokenOp .Div) =>
        match parse_multiplicative_expr fuel toks (j + 1) with
        | .div => .div
        | .fail => .fail
        | .ok right k => .ok (.BinaryExpr left .Div right) k
      | _ => .ok left j
termination_by structural fuel _ _ => fuel

/-- `Parser::parse_primary_expr`: integer, `true`, `false`, identifier,
parenthesized expression, or unary minus. The checks are sequential on
the same token in the source; as the token kinds are disjoint, a single
match is equivalent (in the `LPar` arm, a failed inner parse falls
through the paren block to the minus check, which cannot match `(`, so
the whole primary fails). -/
def parse_primary_expr : Nat → List Token → Nat → PRes Expr
  | 0, _, _ => .div
  | fuel + 1, toks, i =>
    match toks[i]? with
    | some (.Integer value) => .ok (.ConstExpr (.IntValue value)) (i + 1)
    | some .True => .ok (.ConstExpr (.BoolValue true)) (i + 1)
    | some .False => .ok (.ConstExpr (.BoolValue false)) (i + 1)
    | some (.Ident s) => .ok (.IdentExpr s) (i + 1)
    | some .LPar =>
      match parse_expression fuel toks (i + 1) with
      | .div => .div
      | .fail => .fail
      | .ok e j =>
        match toks[j]? with
        | some .RPar => .ok (.ParenthesisExpr e) (j + 1)
        | _ => .fail
    | some (.TokenOp .Minus) =>
      match parse_primary_expr fuel toks (i + 1) with
      | .div => .div
      | .fail => .fail
      | .ok e j => .ok (.NegExpr e) j
    | _ => .fail
termination_by structural fuel _ _ => fuel

end

/-- `Parser::parse_comparison_expr` (`src/parser.rs`, lines 265-267): a
stub that always returns `None`; it is never called, and `parser.rs`
never constructs a `CompareExpr` node. -/
def parse_comparison_expr : Nat → List Token → Nat → PRes Expr :=
  fun _ _ _ => .fail

/-- Outcome of the free function `parse_expression` (with `.div` again
the fuel artifact of this total model). -/
inductive PERes : Type where
  | div
  | err (e : ParserError)
  | ok (e : Expr)
deriving Repr

/-- The free function `parse_expression(tokens)` (`src/parser.rs`,
lines 347-362): parse from index 0, then require the whole token stream
to be consumed (`is_finished`), else `TokensNotParsed`. -/
def parse_expression_all (fuel : Nat) (toks : List Token) : PERes :=
  match parse_expression fuel toks 0 with
  | .div => .div
  | .fail => .err .UnknownSyntax
  | .ok ast j => if j = toks.length then .ok ast else .err .TokensNotParsed

/-! ## Composite pipeline and example programs -/

/-- The tokenize → parse-expression → evaluate pipeline that the front end
performs on one line of input: `none` when tokenizing or parsing does not
produce an expression. -/
def eval_text (fuel : Nat) (input : List Char) : Option (EvalResult Value) :=
  match tokenize input with
  | some (.ok toks) =>
    match parse_expression fuel toks 0 with
    | .ok e _ => some (Expr.eval fuel e [] none)
    | _ => none
  | _ => none

/-- The function body `a = 1; { b = 2; } return b;` of the spec's
block-isolation example. -/
def blockIsolationBody : Statement :=
  .CompoundStatement
    [.SimpleStatement (.AssignmentExpr "a" (.ConstExpr (.IntValue 1))),
     .CompoundStatement [.SimpleStatement (.AssignmentExpr "b" (.ConstExpr (.IntValue 2)))],
     .Return (.IdentExpr "b")]

/-- The loop body `{ return 1; }`. -/
def loopReturnBody : List Statement := [.Return (.ConstExpr (.IntValue 1))]

/-- The loop body `{ x; }` whose evaluation fails with an unknown
variable. -/
def loopErrorBody : List Statement := [.SimpleStatement (.IdentExpr "x")]

/-- A module with one two-parameter function: `fn f(a, b) { return 1 }`. -/
def twoParamModule : Module :=
  ⟨[.Function "f" ["a", "b"] (.CompoundStatement [.Return (.ConstExpr (.IntValue 1))])]⟩

/-- A module with one one-parameter function: `fn idf(a) { return a }`. -/
def oneParamModule : Module :=
  ⟨[.Function "idf" ["a"] (.CompoundStatement [.Return (.IdentExpr "a")])]⟩

/-- The token sequence of `1 == 2`. -/
def cmpTokens : List Token := [.Integer 1, .TokenComp .Equal, .Integer 2]

mutual

/-- `true` iff an expression contains no `CompareExpr` node. -/
def Expr.compareFree : Expr → Bool
  | .ConstExpr _ => true
  | .NegExpr e => Expr.compareFree e
  | .ParenthesisExpr e => Expr.compareFree e
  | .BinaryExpr l _ r => Expr.compareFree l && Expr.compareFree r
  | .CompareExpr _ _ _ => false
  | .AssignmentExpr _ e => Expr.compareFree e
  | .IdentExpr _ => true
  | .FunctionCall _ args => Expr.compareFreeList args
  | .ListExpr es => Expr.compareFreeList es
  | .ListAccess _ e => Expr.compareFree e

/-- `true` iff no expression of the list contains a `CompareExpr` node. -/
def Expr.compareFreeList : List Expr → Bool
  | [] => true
  | e :: es => Expr.compareFree e && Expr.compareFreeList es

end

/-! ## Helper lemmas -/

/-- The lexer loop consumes at least one character per step, so any fuel
bound above the remaining input length never exhausts: the fuel in
`tokenize` is an artifact of the total model, not an observable. -/
theorem tokenizeLoop_total :
    ∀ (fuel : Nat) (tokens : List Token) (cs : List Char), cs.length < fuel →
      tokenizeLoop fuel tokens cs ≠ none := by
  intro fuel
  induction fuel with
  | zero => intro _ _ h; omega
  | succ f ih =>
    intro tokens cs h
    match cs with
    | [] =>
      intro hnone
      rw [tokenizeLoop] at hnone
      cases hnone
    | c :: cs =>
      have hlen : cs.length < f := by simp only [List.length_cons] at h; omega
      have htail : cs.tail.length < f := by
        have := cs.length_tail; omega
      have hcom : ((cs.tail.dropWhile (fun d => d != '\n')).tail).length < f := by
        have h1 := (cs.tail.dropWhile_sublist (fun d => d != '\n')).length_le
        have h2 := (cs.tail.dropWhile (fun d => d != '\n')).length_tail
        have h3 := cs.length_tail
        omega
      have hdigit : (cs.dropWhile isDigitChar).length < f := by
        have := (cs.dropWhile_sublist isDigitChar).length_le
        omega
      have hword : (cs.dropWhile isWordChar).length < f := by
        have := (cs.dropWhile_sublist isWordChar).length_le
        omega
      have hstr : ((cs.dropWhile (fun d => d != '"')).tail).length < f := by
        have h1 := (cs.dropWhile_sublist (fun d => d != '"')).length_le
        have h2 := (cs.dropWhile (fun d => d != '"')).length_tail
        omega
      rw [tokenizeLoop]
      intro hnone
      by_cases hc1 : isDigitChar c = true
      case pos =>
        rw [if_pos hc1] at hnone
        exact ih _ _ hdigit hnone
      case neg =>
      rw [if_neg hc1] at hnone
      by_cases hc2 : (c.isAlpha || c == '_') = true
      case pos =>
        rw [if_pos hc2] at hnone
        exact ih _ _ hword hnone
      case neg =>
      rw [if_neg hc2] at hnone
      by_cases hc3 : (c == '\"') = true
      case pos =>
        rw [if_pos hc3] at hnone
        by_cases hq : (cs.dropWhile (fun d => d != '\"')).isEmpty = true
        case pos => rw [if_pos hq] at hnone; cases hnone
        case neg => rw [if_neg hq] at hnone; exact ih _ _ hstr hnone
      case neg =>
      rw [if_neg hc3] at hnone
      by_cases hc4 : c = '+'
      case pos =>
        rw [if_pos hc4] at hnone
        exact ih _ _ hlen hnone
      case neg =>
      rw [if_neg hc4] at hnone
      by_cases hc5 : c = '-'
      case pos =>
        rw [if_pos hc5] at hnone
        exact ih _ _ hlen hnone
      case neg =>
      rw [if_neg hc5] at hnone
      by_cases hc6 : c = '/'
      case pos =>
        rw [if_pos hc6] at hnone
        by_cases hs : cs.head? = some '/'
        case pos => rw [if_pos hs] at hnone; exact ih _ _ hcom hnone
        case neg => rw [if_neg hs] at hnone; exact ih _ _ hlen hnone
      case neg =>
      rw [if_neg hc6] at hnone
      by_cases hc7 : c = '*'
      case pos =>
        rw [if_pos hc7] at hnone
        exact ih _ _ hlen hnone
      case neg =>
      rw [if_neg hc7] at hnone
      by_cases hc8 : c = '('
      case pos =>
        rw [if_pos hc8] at hnone
        exact ih _ _ hlen hnone
      case neg =>
      rw [if_neg hc8] at hnone
      by_cases hc9 : c = ')'
      case pos =>
        rw [if_pos hc9] at hnone
        exact ih _ _ hlen hnone
      case neg =>
      rw [if_neg hc9] at hnone
      by_cases hc10 : c = '{'
      case pos =>
        rw [if_pos hc10] at hnone
        exact ih _ _ hlen hnone
      case neg =>
      rw [if_neg hc10] at hnone
      by_cases hc11 : c = '}'
      case pos =>
        rw [if_pos hc11] at hnone
        exact ih _ _ hlen hnone
      case neg =>
      rw [if_neg hc11] at hnone
      by_cases hc12 : c = '['
      case pos =>
        rw [if_pos hc12] at hnone
        exact ih _ _ hlen hnone
      case neg =>
      rw [if_neg hc12] at hnone
      by_cases hc13 : c = ']'
      case pos =>
        rw [if_pos hc13] at hnone
        exact ih _ _ hlen hnone
      case neg =>
      rw [if_neg hc13] at hnone
      by_cases hc14 : c = '='
      case pos =>
        rw [if_pos hc14] at hnone
        by_cases he : cs.head? = some '='
        case pos => rw [if_pos he] at hnone; exact ih _ _ htail hnone
        case neg => rw [if_neg he] at hnone; exact ih _ _ hlen hnone
      case neg =>
      rw [if_neg hc14] at hnone
      by_cases hc15 : c = '<'
      case pos =>
        rw [if_pos hc15] at hnone
        by_cases he : cs.head? = some '='
        case pos => rw [if_pos he] at hnone; exact ih _ _ htail hnone
        case neg => rw [if_neg he] at hnone; exact ih _ _ hlen hnone
      case neg =>
      rw [if_neg hc15] at hnone
      by_cases hc16 : c = '>'
      case pos =>
        rw [if_pos hc16] at hnone
        by_cases he : cs.head? = some '='
        case pos => rw [if_pos he] at hnone; exact ih _ _ htail hnone
        case neg => rw [if_neg he] at hnone; exact ih _ _ hlen hnone
      case neg =>
      rw [if_neg hc16] at hnone
      by_cases hc17 : c = ';'
      case pos =>
        rw [if_pos hc17] at hnone
        exact ih _ _ hlen hnone
      case neg =>
      rw [if_neg hc17] at hnone
      by_cases hc18 : c = ','
      case pos =>
        rw [if_pos hc18] at hnone
        exact ih _ _ hlen hnone
      case neg =>
      rw [if_neg hc18] at hnone
      by_cases hc19 : c = ' '
      case pos =>
        rw [if_pos hc19] at hnone
        exact ih _ _ hlen hnone
      case neg =>
      rw [if_neg hc19] at hnone
      by_cases hc20 : c = '\r'
      case pos =>
        rw [if_pos hc20] at hnone
        exact ih _ _ hlen hnone
      case neg =>
      rw [if_neg hc20] at hnone
      by_cases hc21 : c = '\t'
      case pos =>
        rw [if_pos hc21] at hnone
        exact ih _ _ hlen hnone
      case neg =>
      rw [if_neg hc21] at hnone
      by_cases hc22 : c = '\n'
      case pos =>
        rw [if_pos hc22] at hnone
        exact ih _ _ hlen hnone
      case neg =>
      rw [if_neg hc22] at hnone
      cases hnone

/-- `compareFreeList` over a snoc: the new element and the old list are
both compare-free iff the extended list is. -/
theorem compareFreeList_append (acc : List Expr) (e : Expr) :
    Expr.compareFreeList (acc ++ [e]) = true ↔
      Expr.compareFreeList acc = true ∧ Expr.compareFree e = true := by
  induction acc with
  | nil => simp [Expr.compareFreeList]
  | cons a as ih =>
    simp only [List.cons_append, Expr.compareFreeList, Bool.and_eq_true, List.append_eq, ih,
      and_assoc]

/-- No expression-parsing function ever produces a `CompareExpr` node:
`parser.rs` never constructs one (`parse_comparison_expr` is an uncalled
stub), so every successful parse result is compare-free. Proved for all
eight functions of the expression-parser cluster simultaneously, by
induction on fuel. -/
theorem parser_compare_free :
    ∀ fuel : Nat,
      (∀ toks i e j, parse_expression fuel toks i = .ok e j → Expr.compareFree e = true) ∧
      (∀ toks i e j, parse_assignment_expr fuel toks i = .ok e j →
        Expr.compareFree e = true) ∧
      (∀ toks i e j, parse_function_call_expr fuel toks i = .ok e j →
        Expr.compareFree e = true) ∧
      (∀ toks i es j, parse_function_call_argument_list fuel toks i = .ok es j →
        Expr.compareFreeList es = true) ∧
      (∀ toks i acc es j, parse_call_arguments_loop fuel toks i acc = .ok es j →
        Expr.compareFreeList acc = true → Expr.compareFreeList es = true) ∧
      (∀ toks i e j, parse_additive_expr fuel toks i = .ok e j → Expr.compareFree e = true) ∧
      (∀ toks i e j, parse_multiplicative_expr fuel toks i = .ok e j →
        Expr.compareFree e = true) ∧
      (∀ toks i e j, parse_primary_expr fuel toks i = .ok e j → Expr.compareFree e = true) := by
  intro fuel
  induction fuel with
  | zero =>
    exact ⟨fun _ _ _ _ h => PRes.noConfusion h, fun _ _ _ _ h => PRes.noConfusion h,
      fun _ _ _ _ h => PRes.noConfusion h, fun _ _ _ _ h => PRes.noConfusion h,
      fun _ _ _ _ _ h _ => PRes.noConfusion h, fun _ _ _ _ h => PRes.noConfusion h,
      fun _ _ _ _ h => PRes.noConfusion h, fun _ _ _ _ h => PRes.noConfusion h⟩
  | succ f ih =>
    obtain ⟨ihE, ihA, ihF, ihL, ihLoop, ihAdd, ihMul, ihP⟩ := ih
    refine ⟨?_, ?_, ?_, ?_, ?_, ?_, ?_, ?_⟩
    · -- parse_expression: assignment, then call, then additive
      intro toks i e j h
      rw [parse_expression] at h
      split at h
      · cases h
      · rename_i e1 j1 hA
        cases h
        exact ihA _ _ _ _ hA
      · split at h
        · cases h
        · rename_i e1 j1 hF
          cases h
          exact ihF _ _ _ _ hF
        · split at h
          · cases h
          · rename_i e1 j1 hD
            cases h
            exact ihAdd _ _ _ _ hD
          · cases h
    · -- parse_assignment_expr
      intro toks i e j h
      rw [parse_assignment_expr] at h
      split at h
      · split at h
        · split at h
          · cases h
          · cases h
          · rename_i e1 j1 hE
            cases h
            have h2 := ihE _ _ _ _ hE
            exact h2
        · cases h
      · cases h
    · -- parse_function_call_expr
      intro toks i e j h
      rw [parse_function_call_expr] at h
      split at h
      · split at h
        · cases h
        · cases h
        · rename_i args j1 hL
          cases h
          have h2 := ihL _ _ _ _ hL
          exact h2
      · cases h
    · -- parse_function_call_argument_list
      intro toks i es j h
      rw [parse_function_call_argument_list] at h
      split at h
      · split at h
        · cases h
          rfl
        · exact ihLoop _ _ _ _ _ h rfl
      · cases h
    · -- parse_call_arguments_loop
      intro toks i acc es j h hacc
      rw [parse_call_arguments_loop] at h
      split at h
      · cases h
      · cases h
      · rename_i e1 j1 hE
        have hacc1 : Expr.compareFreeList (acc ++ [e1]) = true :=
          (compareFreeList_append acc e1).mpr ⟨hacc, ihE _ _ _ _ hE⟩
        split at h
        · cases h
          exact hacc1
        · exact ihLoop _ _ _ _ _ h hacc1
        · exact ihLoop _ _ _ _ _ h hacc1
    · -- parse_additive_expr
      intro toks i e j h
      rw [parse_additive_expr] at h
      split at h
      · cases h
      · cases h
      · rename_i left j1 hM
        have hl := ihMul _ _ _ _ hM
        split at h
        · split at h
          · cases h
          · cases h
          · rename_i right k hR
            cases h
            have hr := ihAdd _ _ _ _ hR
            have hb : Expr.compareFree (.BinaryExpr left .Plus right) =
                (Expr.compareFree left && Expr.compareFree right) := rfl
            rw [hb, hl, hr]
            rfl
        · split at h
          · cases h
          · cases h
          · rename_i right k hR
            cases h
            have hr := ihAdd _ _ _ _ hR
            have hb : Expr.compareFree (.BinaryExpr left .Minus right) =
                (Expr.compareFree left && Expr.compareFree right) := rfl
            rw [hb, hl, hr]
            rfl
        · cases h
          exact hl
    · -- parse_multiplicative_expr
      intro toks i e j h
      rw [parse_multiplicative_expr] at h
      split at h
      · cases h
      · cases h
      · rename_i left j1 hP1
        have hl := ihP _ _ _ _ hP1
        split at h
        · split at h
          · cases h
          · cases h
          · rename_i right k hR
            cases h
            have hr := ihMul _ _ _ _ hR
            have hb : Expr.compareFree (.BinaryExpr left .Times right) =
                (Expr.compareFree left && Expr.compareFree right) := rfl
            rw [hb, hl, hr]
            rfl
        · split at h
          · cases h
          · cases h
          · rename_i right k hR
            cases h
            have hr := ihMul _ _ _ _ hR
            have hb : Expr.compareFree (.BinaryExpr left .Div right) =
                (Expr.compareFree left && Expr.compareFree right) := rfl
            rw [hb, hl, hr]
            rfl
        · cases h
          exact hl
    · -- parse_primary_expr
      intro toks i e j h
      rw [parse_primary_expr] at h
      split at h
      · cases h
        rfl
      · cases h
        rfl
      · cases h
        rfl
      · cases h
        rfl
      · split at h
        · cases h
        · cases h
        · rename_i e1 j1 hE
          split at h
          · cases h
            have h2 := ihE _ _ _ _ hE
            exact h2
          · cases h
      · split at h
        · cases h
        · cases h
        · rename_i e1 j1 hP2
          cases h
          have h2 := ihP _ _ _ _ hP2
          exact h2
      · cases h

/-- Evaluating the statement list `[return 1]` either runs out of fuel or
yields the `Return 1` outcome with the environment unchanged. -/
theorem eval_statement_list_ret1 (f : Nat) (env : Env) (m : Option Module) :
    Statement.eval_statement_list f loopReturnBody env m = .error .outOfFuel ∨
      Statement.eval_statement_list f loopReturnBody env m =
        .ok (.ok (.Return (.IntValue 1)), env) := by
  match f with
  | 0 => exact Or.inl rfl
  | 1 => exact Or.inl rfl
  | 2 => exact Or.inl rfl
  | (k + 3) => exact Or.inr rfl

/-- The loop over the body `[return 1]` exhausts any amount of fuel: the
`Return` outcome makes it iterate again instead of exiting. -/
theorem eval_loop_ret1_diverges (f : Nat) (env : Env) (m : Option Module) :
    Statement.eval_loop f loopReturnBody env m = .error .outOfFuel := by
  induction f generalizing env with
  | zero => rfl
  | succ k ih =>
    rcases eval_statement_list_ret1 k env m with h | h <;>
      simp only [Statement.eval_loop, h]
    exact ih env

/-! ## Claims -/

/-- C1: evaluating a compound-statement block clones the environment on
entry and evaluates the contained statements against the clone, so the
caller's environment after the block is exactly what it was before —
whenever block evaluation returns (rather than aborting), the returned
environment is the input environment; and the function body
`a = 1; { b = 2; } return b;` fails with the unknown-variable error for
`b`, the binding `b = 2` of the nested block never escaping it. -/
theorem compound_block_isolates_environment :
    (∀ (fuel : Nat) (stmts : List Statement) (env : Env) (m : Option Module)
      (r : Except EvalError StatementEval) (env' : Env),
      Statement.eval fuel (.CompoundStatement stmts) env m = .ok (r, env') → env' = env) ∧
    Statement.eval 20 blockIsolationBody [] none = .ok (.error (.UnknownVariable "b"), []) := by
  constructor
  · intro fuel stmts env m r env' h
    cases fuel with
    | zero => simp [Statement.eval] at h
    | succ f =>
      simp only [Statement.eval] at h
      cases hl : Statement.eval_statement_list f stmts env m with
      | error ab => rw [hl] at h; cases h
      | ok p =>
        rw [hl] at h
        simp only [Except.ok.injEq, Prod.mk.injEq] at h
        exact h.2.symm
  · rfl

/-- C1 witness: a block that assigns `b` inside, run in an environment
holding only `a`, returns with the caller's environment unchanged. -/
theorem compound_block_isolates_environment_witness :
    Statement.eval 10
        (.CompoundStatement [.SimpleStatement (.AssignmentExpr "b" (.ConstExpr (.IntValue 2)))])
        [("a", .IntValue 1)] none =
      .ok (.ok .NoneEval, [("a", .IntValue 1)]) ∧
    ([("a", Value.IntValue 1)] : Env) = [("a", Value.IntValue 1)] :=
  ⟨rfl, compound_block_isolates_environment.1 10
    [.SimpleStatement (.AssignmentExpr "b" (.ConstExpr (.IntValue 2)))]
    [("a", .IntValue 1)] none (.ok .NoneEval) [("a", .IntValue 1)] rfl⟩

/-- C2: at the failing input `loop { return 1; }` the loop does *not*
yield the body's `Return` outcome — the body's statement list evaluates
to `Return 1`, but the loop's `while let` matches only `Break`, so the
`Return` outcome falls into the catch-all arm and the loop iterates
again forever (it exhausts every fuel bound instead of returning); a
`break` in the body does end the loop with the no-value outcome. -/
theorem loop_ignores_return_outcome :
    Statement.eval_statement_list 10 loopReturnBody [] none =
      .ok (.ok (.Return (.IntValue 1)), []) ∧
    (∀ fuel : Nat,
      Statement.eval fuel (.Loop (.CompoundStatement loopReturnBody)) [] none =
        .error .outOfFuel) ∧
    Statement.eval 10 (.Loop (.CompoundStatement [.Break])) [] none = .ok (.ok .NoneEval, []) := by
  refine ⟨rfl, ?_, rfl⟩
  intro fuel
  cases fuel with
  | zero => rfl
  | succ k =>
    simp only [Statement.eval]
    exact eval_loop_ret1_diverges k [] none

/-- C3 counterexample: for the assignment `a = x` in the empty
environment, evaluating the right-hand side fails with an
unknown-variable error, yet the assignment itself evaluates successfully
to the no-value marker instead of propagating that error. -/
theorem assignment_error_not_propagated :
    Expr.eval 1 (.IdentExpr "x") [] none = .ok (.error (.UnknownVariable "x"), []) ∧
    Expr.eval 2 (.AssignmentExpr "a" (.IdentExpr "x")) [] none = .ok (.ok .NoneValue, []) :=
  ⟨rfl, rfl⟩

/-- C3 (amended): when the right-hand side succeeds, the assignment binds
the name in the current environment (overwriting any existing binding)
and evaluates to the no-value marker; when the right-hand side fails,
the error is *discarded* — the assignment adds no binding, leaves the
environment as the right-hand side's evaluation left it, and still
evaluates to the no-value marker. -/
theorem assignment_binds_on_success_swallows_on_failure :
    (∀ (fuel : Nat) (name : String) (rhs : Expr) (env env' : Env) (v : Value)
      (m : Option Module),
      Expr.eval fuel rhs env m = .ok (.ok v, env') →
      Expr.eval (fuel + 1) (.AssignmentExpr name rhs) env m =
        .ok (.ok .NoneValue, Env.insert env' name v)) ∧
    (∀ (fuel : Nat) (name : String) (rhs : Expr) (env env' : Env) (err : EvalError)
      (m : Option Module),
      Expr.eval fuel rhs env m = .ok (.error err, env') →
      Expr.eval (fuel + 1) (.AssignmentExpr name rhs) env m = .ok (.ok .NoneValue, env')) := by
  constructor
  · intro fuel name rhs env env' v m h
    simp only [Expr.eval, h]
  · intro fuel name rhs env env' err m h
    simp only [Expr.eval, h]

/-- C3 witness: `a = 5` binds `a` to `5` and yields the no-value marker;
`a = x` with `x` unbound yields the no-value marker and leaves the empty
environment empty. -/
theorem assignment_binds_on_success_swallows_on_failure_witness :
    Expr.eval 2 (.AssignmentExpr "a" (.ConstExpr (.IntValue 5))) [] none =
      .ok (.ok .NoneValue, Env.insert [] "a" (.IntValue 5)) ∧
    Expr.eval 2 (.AssignmentExpr "a" (.IdentExpr "x")) [] none = .ok (.ok .NoneValue, []) :=
  ⟨assignment_binds_on_success_swallows_on_failure.1 1 "a" (.ConstExpr (.IntValue 5))
      [] [] (.IntValue 5) none rfl,
    assignment_binds_on_success_swallows_on_failure.2 1 "a" (.IdentExpr "x")
      [] [] (.UnknownVariable "x") none rfl⟩

/-- C4: when both operands of a binary arithmetic expression fail,
evaluation returns a single aggregated `MultipleError` holding exactly
the two underlying causes, the left one first. -/
theorem binary_both_fail_aggregates :
    ∀ (fuel : Nat) (l r : Expr) (op : Op) (env env1 env2 : Env) (e1 e2 : EvalError)
      (m : Option Module),
      Expr.eval fuel l env m = .ok (.error e1, env1) →
      Expr.eval fuel r env1 m = .ok (.error e2, env2) →
      Expr.eval (fuel + 1) (.BinaryExpr l op r) env m =
        .ok (.error (.MultipleError [e1, e2]), env2) := by
  intro fuel l r op env env1 env2 e1 e2 m h1 h2
  simp only [Expr.eval, h1, h2]

/-- C4 witness: `undefined_a + undefined_b` in the empty environment
yields the multi-error with exactly the two unknown-variable causes in
left-then-right order. -/
theorem binary_both_fail_aggregates_witness :
    Expr.eval 1 (.IdentExpr "undefined_a") ([] : Env) none =
      .ok (.error (.UnknownVariable "undefined_a"), []) ∧
    Expr.eval 2 (.BinaryExpr (.IdentExpr "undefined_a") .Plus (.IdentExpr "undefined_b"))
        [] none =
      .ok (.error (.MultipleError
        [.UnknownVariable "undefined_a", .UnknownVariable "undefined_b"]), []) :=
  ⟨rfl, binary_both_fail_aggregates 1 (.IdentExpr "undefined_a") (.IdentExpr "undefined_b")
    .Plus [] [] [] (.UnknownVariable "undefined_a") (.UnknownVariable "undefined_b") none
    rfl rfl⟩

/-- C5: comparison is *never* parsed — at the failing input `1 == 2`
(tokens `cmpTokens`), `Parser::parse_expression` consumes only the leading
`1` and returns the constant `1` (and the free `parse_expression` function
then fails with `TokensNotParsed`); `parse_comparison_expr` is an uncalled
stub that always fails, and no successful result of `parse_expression`,
at any fuel, any token list and any position, contains a `CompareExpr`
node. -/
theorem comparison_never_parsed :
    parse_expression 10 cmpTokens 0 = .ok (.ConstExpr (.IntValue 1)) 1 ∧
    parse_expression_all 10 cmpTokens = .err .TokensNotParsed ∧
    (∀ (fuel i : Nat) (toks : List Token), parse_comparison_expr fuel toks i = .fail) ∧
    (∀ (fuel i j : Nat) (toks : List Token) (e : Expr),
      parse_expression fuel toks i = .ok e j → Expr.compareFree e = true) :=
  ⟨rfl, rfl, fun _ _ _ => rfl,
    fun fuel i j toks e h => (parser_compare_free fuel).1 toks i e j h⟩

/-- C5 witness: the general compare-free conclusion applied at the tokens
of `1 == 2`. -/
theorem comparison_never_parsed_witness :
    Expr.compareFree (.ConstExpr (.IntValue 1)) = true :=
  comparison_never_parsed.2.2.2 10 0 1 cmpTokens (.ConstExpr (.IntValue 1)) rfl

/-- C6 counterexample: on the tokens of `10 - 3 - 2` the parser produces
the *right*-leaning tree `10 - (3 - 2)` — not the left-associative
`(10 - 3) - 2` — and the expression evaluates to `9`, not `5`. -/
theorem additive_right_associative_cex :
    parse_expression 30 [.Integer 10, .TokenOp .Minus, .Integer 3, .TokenOp .Minus, .Integer 2]
        0 =
      .ok (.BinaryExpr (.ConstExpr (.IntValue 10)) .Minus
        (.BinaryExpr (.ConstExpr (.IntValue 3)) .Minus (.ConstExpr (.IntValue 2)))) 5 ∧
    (Expr.BinaryExpr (.ConstExpr (.IntValue 10)) .Minus
        (.BinaryExpr (.ConstExpr (.IntValue 3)) .Minus (.ConstExpr (.IntValue 2))) ≠
      Expr.BinaryExpr (.BinaryExpr (.ConstExpr (.IntValue 10)) .Minus (.ConstExpr (.IntValue 3)))
        .Minus (.ConstExpr (.IntValue 2))) ∧
    eval_text 100 "10 - 3 - 2".toList = some (.ok (.ok (.IntValue 9), [])) ∧
    Value.IntValue 9 ≠ Value.IntValue 5 :=
  ⟨rfl, by simp, rfl, by simp⟩

/-- C6 (amended): additive expression parsing recurses into the right
operand at the same precedence level, building a right-associative chain:
for all integer literals `a op1 b op2 c` with `op1`, `op2` drawn from
`+`/`-`, the parser produces the tree `(a op1 (b op2 c))`; in particular
`10 - 3 - 2` parses as `10 - (3 - 2)` and evaluates to `9`, not `5`. -/
theorem additive_parses_right_associative :
    ∀ (a b c : Int),
      parse_expression 30 [.Integer a, .TokenOp .Plus, .Integer b, .TokenOp .Plus, .Integer c]
          0 =
        .ok (.BinaryExpr (.ConstExpr (.IntValue a)) .Plus
          (.BinaryExpr (.ConstExpr (.IntValue b)) .Plus (.ConstExpr (.IntValue c)))) 5 ∧
      parse_expression 30 [.Integer a, .TokenOp .Plus, .Integer b, .TokenOp .Minus, .Integer c]
          0 =
        .ok (.BinaryExpr (.ConstExpr (.IntValue a)) .Plus
          (.BinaryExpr (.ConstExpr (.IntValue b)) .Minus (.ConstExpr (.IntValue c)))) 5 ∧
      parse_expression 30 [.Integer a, .TokenOp .Minus, .Integer b, .TokenOp .Plus, .Integer c]
          0 =
        .ok (.BinaryExpr (.ConstExpr (.IntValue a)) .Minus
          (.BinaryExpr (.ConstExpr (.IntValue b)) .Plus (.ConstExpr (.IntValue c)))) 5 ∧
      parse_expression 30 [.Integer a, .TokenOp .Minus, .Integer b, .TokenOp .Minus, .Integer c]
          0 =
        .ok (.BinaryExpr (.ConstExpr (.IntValue a)) .Minus
          (.BinaryExpr (.ConstExpr (.IntValue b)) .Minus (.ConstExpr (.IntValue c)))) 5 ∧
      eval_text 100 "10 - 3 - 2".toList = some (.ok (.ok (.IntValue 9), [])) :=
  fun _ _ _ => ⟨rfl, rfl, rfl, rfl, rfl⟩

/-- C7 counterexample: calling the two-parameter function
`fn f(a, b) { return 1 }` with the single argument `7` panics with an
out-of-bounds index during argument binding — it does not proceed with
`b` unbound. -/
theorem call_fewer_arguments_panics :
    Expr.eval 10 (.FunctionCall "f" [.ConstExpr (.IntValue 7)]) [] (some twoParamModule) =
      .error (.panicked "index out of bounds") :=
  rfl

/-- C7 (amended): call binding iterates over the callee's parameter
list, so extra arguments beyond the parameter count are silently
dropped without even being evaluated (binding only reads the first
`params.length` arguments); but a call with *fewer* arguments than
parameters panics with an out-of-bounds index during binding. -/
theorem call_binding_drops_extra_arguments :
    (∀ (fuel : Nat) (params : List FnArg) (args : List Expr) (env acc : Env)
      (m : Option Module),
      params.length ≤ args.length →
      Expr.bind_call_arguments fuel params args env acc m =
        Expr.bind_call_arguments fuel params (args.take params.length) env acc m) ∧
    Expr.eval 10
        (.FunctionCall "idf"
          [.ConstExpr (.IntValue 5), .IdentExpr "zzz", .ConstExpr (.IntValue 7)])
        [] (some oneParamModule) =
      .ok (.ok (.IntValue 5), []) := by
  constructor
  · intro fuel params
    induction params generalizing fuel with
    | nil =>
      intro args env acc m _
      cases fuel <;> rfl
    | cons p ps ih =>
      intro args env acc m h
      cases args with
      | nil => simp at h
      | cons e es =>
        cases fuel with
        | zero => rfl
        | succ f =>
          simp only [List.length_cons, List.take_succ_cons]
          simp only [Expr.bind_call_arguments]
          cases he : Expr.eval f e env m with
          | error ab => rfl
          | ok p' =>
            obtain ⟨r, env'⟩ := p'
            cases r with
            | ok v => exact ih f es env' (Env.insert acc p v) m (by simpa using h)
            | error err => exact ih f es env' acc m (by simpa using h)
  · rfl

/-- C7 witness: binding one parameter against two supplied arguments
reads only the first argument. -/
theorem call_binding_drops_extra_arguments_witness :
    Expr.bind_call_arguments 5 ["a"] [.ConstExpr (.IntValue 5), .IdentExpr "zzz"] [] [] none =
      Expr.bind_call_arguments 5 ["a"] [.ConstExpr (.IntValue 5)] [] [] none :=
  call_binding_drops_extra_arguments.1 5 ["a"]
    [.ConstExpr (.IntValue 5), .IdentExpr "zzz"] [] [] none (by decide)

/-- C8 counterexample: evaluating the loop body `{ x; }` fails with the
unknown-variable error for `x`, yet the loop `loop { x; }` evaluates
*successfully* to the no-value outcome — the error is swallowed, not
returned to the caller. -/
theorem loop_error_swallowed_cex :
    Statement.eval_statement_list 10 loopErrorBody [] none =
      .ok (.error (.UnknownVariable "x"), []) ∧
    Statement.eval 12 (.Loop (.CompoundStatement loopErrorBody)) [] none =
      .ok (.ok .NoneEval, []) :=
  ⟨rfl, rfl⟩

/-- C8 (amended): when a loop body's statement-list evaluation fails with
an evaluation error, the `while let Ok` loop exits and the loop as a
whole evaluates *successfully* to the no-value outcome (the body's error
is discarded, not propagated to the caller). -/
theorem loop_swallows_body_error :
    ∀ (fuel : Nat) (stmts : List Statement) (env env' : Env) (err : EvalError)
      (m : Option Module),
      Statement.eval_statement_list fuel stmts env m = .ok (.error err, env') →
      Statement.eval (fuel + 2) (.Loop (.CompoundStatement stmts)) env m =
        .ok (.ok .NoneEval, env') := by
  intro fuel stmts env env' err m h
  simp only [Statement.eval, Statement.eval_loop, h]

/-- C8 witness: the loop over the failing body `{ x; }`. -/
theorem loop_swallows_body_error_witness :
    Statement.eval 12 (.Loop (.CompoundStatement loopErrorBody)) [] none =
      .ok (.ok .NoneEval, []) :=
  loop_swallows_body_error 10 loopErrorBody [] [] (.UnknownVariable "x") none rfl

/-- C9 counterexample: the text `(1 + 2) * 3` tokenizes, parses and
evaluates to the integer `9`, not `8` as the claim states. -/
theorem paren_precedence_cex :
    eval_text 100 "(1 + 2) * 3".toList = some (.ok (.ok (.IntValue 9), [])) ∧
    Value.IntValue 9 ≠ Value.IntValue 8 :=
  ⟨rfl, by simp⟩

/-- C9 (amended): multiplicative operators bind tighter than additive
operators through the tokenize → parse → evaluate pipeline: `1 + 2 * 3`
evaluates to `7`, and `(1 + 2) * 3` evaluates to `9`. -/
theorem arithmetic_precedence_pipeline :
    eval_text 100 "1 + 2 * 3".toList = some (.ok (.ok (.IntValue 7), [])) ∧
    eval_text 100 "(1 + 2) * 3".toList = some (.ok (.ok (.IntValue 9), [])) :=
  ⟨rfl, rfl⟩

/-- C10: when the scanner reaches an opening `"` with no closing quote in
the remaining input, it raises no error and discards everything from the
quote to the end of input, returning `Ok` of exactly the tokens produced
so far (for every fuel bound that has not already run out). -/
theorem unterminated_string_swallowed :
    ∀ (fuel : Nat) (cs : List Char) (tokens : List Token), '"' ∉ cs →
      tokenizeLoop (fuel + 1) tokens ('"' :: cs) = some (.ok tokens) := by
  intro fuel cs tokens h
  have hnil : cs.dropWhile (fun d => d != '"') = [] := by
    rw [List.dropWhile_eq_nil_iff]
    intro x hx
    simp only [bne_iff_ne, ne_eq]
    exact fun heq => h (heq ▸ hx)
  rw [tokenizeLoop]
  rw [if_neg (by decide), if_neg (by decide), if_pos (by decide)]
  rw [hnil]
  rfl

/-- C10 witness: tokenizing `1 + "abc` (the string literal never closed)
succeeds with just the tokens before the quote. -/
theorem unterminated_string_swallowed_witness :
    tokenizeLoop 4 [.Integer 1, .TokenOp .Plus] ('"' :: "abc".toList) =
      some (.ok [.Integer 1, .TokenOp .Plus]) ∧
    tokenize "1 + \"abc".toList = some (.ok [.Integer 1, .TokenOp .Plus]) :=
  ⟨unterminated_string_swallowed 3 "abc".toList [.Integer 1, .TokenOp .Plus] (by decide), rfl⟩

end Interp
